import Mathlib

/-!
Shallow embedding of the application-api reconciliation operator
(`src/main.rs`, `src/controllers/assignment.rs`, `src/workflows/gitops.rs`,
`src/utils/render.rs`, `src/models/label_match_spec.rs`,
`src/models/assignment_spec.rs`) and proofs about it.

Conventions of the embedding:
- Rust `HashMap<K, V>` values are embedded either as association lists
  (`List (K × V)`, the iteration sequence of the map, keys unique) or as
  functions `K → Option V` built by repeated insertion, depending on how the
  source uses them.
- The local filesystem is a store `List String → Option String` from
  path components to file contents; `std::fs::write` is an update of that
  store.
- Kubernetes and git network calls are external effects: the reconciler is
  embedded as a function from the outcome of each external call (success or
  failure) to the ordered trace of calls it performs.
-/

/-! ## Generic insert-overwrite maps (Rust `HashMap::insert` / `std::fs::write`) -/

/-- Insert-overwrite a single binding into a map, as `HashMap::insert` does
(also the effect of `std::fs::write` on the file store). -/
def upd {κ ν : Type} [DecidableEq κ] (m : κ → Option ν) (kv : κ × ν) : κ → Option ν :=
  fun k => if k = kv.1 then some kv.2 else m k

/-- Fold a sequence of insert-overwrites over a map: embeds a Rust loop of
`map.insert(key, value)` calls in iteration order. -/
def updAll {κ ν : Type} [DecidableEq κ] (m : κ → Option ν) (l : List (κ × ν)) : κ → Option ν :=
  l.foldl upd m

/-- The value of the last binding for key `k` in the sequence `l`, if any:
the value that survives when `l` is inserted left to right. -/
def lastVal {κ ν : Type} [DecidableEq κ] (k : κ) : List (κ × ν) → Option ν
  | [] => none
  | kv :: l =>
      match lastVal k l with
      | some v => some v
      | none => if kv.1 = k then some kv.2 else none

/-- First-match association lookup: embeds `HashMap::get` (the source maps
have unique keys, so first match and last match coincide there). -/
def lookupList (l : List (String × String)) (k : String) : Option String :=
  match l with
  | [] => none
  | kv :: rest => if kv.1 = k then some kv.2 else lookupList rest k

/-- Left-biased combination of two optional values: the first layer that
defines the key wins. Used to state how override layers shadow each other. -/
def overlay (a b : Option String) : Option String :=
  match a with
  | some v => some v
  | none => b

/-! ## Handlebars templates (`handlebars::Handlebars` as used in
`GitopsWorkflow::render` and `utils::render::render`) -/

/-- A parsed text template: literal runs interleaved with named-variable
interpolations (the `handlebars` mini-language as used by the source). -/
inductive Segment where
  | lit (s : String)
  | var (name : String)

/-- Render failure raised by the template engine in strict mode. -/
inductive RenderErr where
  | missingVariable (name : String)

/-- Modelled from the `handlebars` crate (not part of this repository):
`Handlebars::render` over a registered template. In strict mode an
unresolved variable is a render error; in the default non-strict mode an
unresolved variable renders as the empty string. The source constructs its
registry with `Handlebars::new()` and never calls `set_strict_mode`, so the
source always runs this with `strict = false`. -/
def hbRenderSegs (strict : Bool) (values : List (String × String)) :
    List Segment → String → Except RenderErr String
  | [], acc => Except.ok acc
  | Segment.lit s :: rest, acc => hbRenderSegs strict values rest (acc ++ s)
  | Segment.var n :: rest, acc =>
      match lookupList values n with
      | some v => hbRenderSegs strict values rest (acc ++ v)
      | none =>
          if strict then Except.error (RenderErr.missingVariable n)
          else hbRenderSegs strict values rest acc

/-- Top-level template render, starting from an empty output accumulator. -/
def hbRender (strict : Bool) (t : List Segment) (values : List (String × String)) :
    Except RenderErr String :=
  hbRenderSegs strict values t ""

/-- The total value of a non-strict render: identical to
`hbRenderSegs false` except that no error case exists (unresolved variables
contribute nothing to the output). -/
def hbRenderOkSegs (values : List (String × String)) : List Segment → String → String
  | [], acc => acc
  | Segment.lit s :: rest, acc => hbRenderOkSegs values rest (acc ++ s)
  | Segment.var n :: rest, acc =>
      match lookupList values n with
      | some v => hbRenderOkSegs values rest (acc ++ v)
      | none => hbRenderOkSegs values rest acc

/-! ## Template directory trees and the two renderers -/

/-- A filesystem entry of the template repository working copy: a regular
file holding a parsed template, or a directory with its entries in
`read_dir` order. -/
inductive Entry where
  | file (name : String) (content : List Segment)
  | dir (name : String) (entries : List Entry)

/-- Embeds the check
`entry.file_name().to_str().unwrap().chars().next().unwrap() == '.'`
of `GitopsWorkflow::render`. -/
def isDotted (n : String) : Bool := n.data.head? == some '.'

/-- The local filesystem under the gitops repository root: map from
root-relative paths (as component lists) to file contents. -/
def Store : Type := List String → Option String

/-- Embeds `GitopsWorkflow::render` (src/workflows/gitops.rs lines 94-149)
on the directory listing of `template_path`. Returns the accumulated
`paths` list (output-relative paths of the files written, in visit order)
and the `std::fs::write` calls performed, as (path, contents) pairs in
order. Directories whose name starts with a dot are skipped entirely;
other directories are recursed into; every regular file is rendered with
the non-strict engine (which never fails, proved below)
and written to the mirrored output path. The `create_dir_all` calls touch
no files and are not modelled. -/
def GitopsWorkflow.renderEntries (values : List (String × String)) (rootRel : List String) :
    List Entry → List (List String) × List (List String × String)
  | [] => ([], [])
  | Entry.file n t :: rest =>
      let out := rootRel ++ [n]
      let r := GitopsWorkflow.renderEntries values rootRel rest
      (out :: r.1, (out, hbRenderOkSegs values t "") :: r.2)
  | Entry.dir n sub :: rest =>
      if isDotted n then GitopsWorkflow.renderEntries values rootRel rest
      else
        let s := GitopsWorkflow.renderEntries values (rootRel ++ [n]) sub
        let r := GitopsWorkflow.renderEntries values rootRel rest
        (s.1 ++ r.1, s.2 ++ r.2)

/-- Embeds the standalone `utils::render::render` (src/utils/render.rs
lines 9-47): identical recursive walk except that it recurses into every
directory, with no dotted-name skip. -/
def utils.renderEntries (values : List (String × String)) (rootRel : List String) :
    List Entry → List (List String) × List (List String × String)
  | [] => ([], [])
  | Entry.file n t :: rest =>
      let out := rootRel ++ [n]
      let r := utils.renderEntries values rootRel rest
      (out :: r.1, (out, hbRenderOkSegs values t "") :: r.2)
  | Entry.dir n sub :: rest =>
      let s := utils.renderEntries values (rootRel ++ [n]) sub
      let r := utils.renderEntries values rootRel rest
      (s.1 ++ r.1, s.2 ++ r.2)

/-- Specification-side helper: the template tree with every dot-named
directory (and its whole subtree) removed. -/
def pruneDotted : List Entry → List Entry
  | [] => []
  | Entry.file n t :: rest => Entry.file n t :: pruneDotted rest
  | Entry.dir n sub :: rest =>
      if isDotted n then pruneDotted rest
      else Entry.dir n (pruneDotted sub) :: pruneDotted rest

/-- True when no directory anywhere in the tree has a dot-prefixed name. -/
def noDottedDirs : List Entry → Bool
  | [] => true
  | Entry.file _ _ :: rest => noDottedDirs rest
  | Entry.dir n sub :: rest => !isDotted n && noDottedDirs sub && noDottedDirs rest

/-- One render pass as a filesystem transformation: returns the path list
and the store after all `std::fs::write` calls of the pass. -/
def GitopsWorkflow.renderRun (values : List (String × String)) (rootRel : List String)
    (tree : List Entry) (s : Store) : List (List String) × Store :=
  let r := GitopsWorkflow.renderEntries values rootRel tree
  (r.1, updAll s r.2)

/-! ## Manifest linker (`GitopsWorkflow::link`, src/workflows/gitops.rs lines 151-188) -/

/-- A directory-listing entry of the cluster output directory, in `read_dir`
order: `file_type.is_dir()` distinguishes the two cases. -/
inductive DirEntry where
  | dirE (name : String)
  | fileE (name : String)

/-- The name carried by a listing entry. -/
def DirEntry.dname : DirEntry → String
  | DirEntry.dirE n => n
  | DirEntry.fileE n => n

/-- True for directory entries other than the reserved `flux-system`
directory, mirroring `file_type.is_dir() && !file_name.eq("flux-system")`. -/
def DirEntry.isKeptDir : DirEntry → Bool
  | DirEntry.dirE n => !(n == "flux-system")
  | DirEntry.fileE _ => false

/-- The loop of `GitopsWorkflow::link` that pushes every subdirectory name
except `flux-system` onto the applications vector. -/
def GitopsWorkflow.keptDirs : List DirEntry → List String
  | [] => []
  | DirEntry.dirE n :: rest =>
      if n == "flux-system" then GitopsWorkflow.keptDirs rest
      else n :: GitopsWorkflow.keptDirs rest
  | DirEntry.fileE _ :: rest => GitopsWorkflow.keptDirs rest

/-- The full `applications` vector of `GitopsWorkflow::link`: it is
initialized as `vec![OsString::from("../common")]` before the directory
scan, so `../common` is always its first element. -/
def GitopsWorkflow.applications (entries : List DirEntry) : List String :=
  "../common" :: GitopsWorkflow.keptDirs entries

/-- The kustomization.yaml contents produced by `GitopsWorkflow::link`:
fixed apiVersion/kind header, then one indented list item per application. -/
def GitopsWorkflow.kustomization (entries : List DirEntry) : String :=
  "apiVersion: kustomize.config.k8s.io/v1beta1\nkind: Kustomization\nresources:\n"
    ++ String.join ((GitopsWorkflow.applications entries).map (fun a => "    - " ++ a ++ "\n"))

/-- The filesystem effect of `GitopsWorkflow::link` on the cluster directory
`clusterPath` whose listing is `entries`: one `std::fs::write` of the
manifest at `clusterPath/kustomization.yaml`. -/
def GitopsWorkflow.link (entries : List DirEntry) (clusterPath : List String) (s : Store) :
    Store :=
  upd s (clusterPath ++ ["kustomization.yaml"], GitopsWorkflow.kustomization entries)

/-! ## Label matcher (src/models/label_match_spec.rs, src/models/assignment_spec.rs,
src/models/cluster.rs) -/

/-- Embeds `Cluster`: a name and a label map (association list with unique
keys, standing for the `HashMap<String, String>`). -/
structure Cluster where
  name : String
  labels : List (String × String)

/-- Embeds `LabelMatchSpec`: a label key and a compiled regular expression.
The compiled `regex::Regex` of the source is embedded abstractly by its
`is_match` predicate (a search, not anchored, per the regex crate). -/
structure LabelMatchSpec where
  label : String
  regexMatch : String → Bool

/-- Embeds `LabelMatchSpec::matches` (src/models/label_match_spec.rs lines
10-17): look the key up in the cluster labels; on a hit run the regex, on a
miss return false. -/
def LabelMatchSpec.matches (s : LabelMatchSpec) (c : Cluster) : Bool :=
  match lookupList c.labels s.label with
  | some v => s.regexMatch v
  | none => false

/-- Embeds `AssignmentSpec` (src/models/assignment_spec.rs). -/
structure AssignmentSpec where
  id : String
  matchingLabels : List LabelMatchSpec
  maxAssignments : Option Int

/-- The early-exit loop of `AssignmentSpec::matches`: returns false at the
first non-matching sub-rule, true when the list is exhausted. -/
def matchesAll (c : Cluster) : List LabelMatchSpec → Bool
  | [] => true
  | s :: rest => if s.matches c then matchesAll c rest else false

/-- Embeds `AssignmentSpec::matches` (src/models/assignment_spec.rs lines
12-23). -/
def AssignmentSpec.matches (r : AssignmentSpec) (c : Cluster) : Bool :=
  matchesAll c r.matchingLabels

/-! ## Reconciliation controller (src/main.rs) -/

/-- Embeds the watched `ApplicationAssignment` resource metadata used by
`reconcile` and `determine_action`: namespace, deletion timestamp and
finalizer list, each optional exactly as in `kube::api::ObjectMeta`. -/
structure ApplicationAssignment where
  name : String
  resourceNamespace : Option String
  deletionTimestamp : Option String
  finalizers : Option (List String)

namespace Main

/-- Embeds the `Action` enum of src/main.rs. -/
inductive Action where
  | Create
  | Delete
  | NoOp
deriving DecidableEq

/-- Embeds `determine_action` (src/main.rs lines 171-179). -/
def determine_action (a : ApplicationAssignment) : Action :=
  if a.deletionTimestamp.isSome then Action.Delete
  else if a.finalizers.isSome then Action.Create
  else Action.NoOp

/-- The four external controller calls `reconcile` can make, in the source
the methods of `ApplicationAssignmentController`: finalizer patch, gitops
materialization (clone, render, link, commit, push), gitops removal, and
finalizer removal patch. -/
inductive Event where
  | addFinalizer
  | createDeployment
  | deleteDeployment
  | deleteFinalizer
deriving DecidableEq

/-- Outcome of each external call, supplied to the embedded reconciler:
`true` means the call would succeed, `false` that it would fail. A failed
call is assumed to have no external effect (the patch or push is atomic). -/
structure Outcomes where
  addFinalizer : Bool
  createDeployment : Bool
  deleteDeployment : Bool
  deleteFinalizer : Bool

/-- Embeds the `Error` enum of src/utils/error.rs as far as `reconcile`
distinguishes its cases: the `UserInputError` for a missing namespace, and
any error propagated by `?` from a controller call. -/
inductive RecError where
  | userInputError
  | stepFailed (step : Event)

/-- Embeds `reconcile` (src/main.rs lines 82-163). The result pairs the
ordered trace of controller calls made (each tagged with whether it
succeeded) with the returned value: `Except.ok requeueSeconds` for
`Ok(ReconcilerAction { requeue_after })`, `Except.error` for a propagated
failure. A failing call ends the reconciliation at once via `?`. -/
def reconcile (o : Outcomes) (a : ApplicationAssignment) :
    List (Event × Bool) × Except RecError (Option Nat) :=
  match a.resourceNamespace with
  | none => ([], Except.error RecError.userInputError)
  | some _ =>
      match determine_action a with
      | Action.Create =>
          if o.addFinalizer then
            if o.createDeployment then
              ([(Event.addFinalizer, true), (Event.createDeployment, true)],
                Except.ok (some 60))
            else
              ([(Event.addFinalizer, true), (Event.createDeployment, false)],
                Except.error (RecError.stepFailed Event.createDeployment))
          else
            ([(Event.addFinalizer, false)],
              Except.error (RecError.stepFailed Event.addFinalizer))
      | Action.Delete =>
          if o.deleteDeployment then
            if o.deleteFinalizer then
              ([(Event.deleteDeployment, true), (Event.deleteFinalizer, true)],
                Except.ok none)
            else
              ([(Event.deleteDeployment, true), (Event.deleteFinalizer, false)],
                Except.error (RecError.stepFailed Event.deleteFinalizer))
          else
            ([(Event.deleteDeployment, false)],
              Except.error (RecError.stepFailed Event.deleteDeployment))
      | Action.NoOp => ([], Except.ok (some 60))

/-! ### Lifecycle safety instrumentation for the reconciliation trace -/

/-- The externally visible lifecycle facts the finalizer protocol protects:
whether the finalizer marker is on the resource and whether materialized
artifacts exist in the gitops repository. -/
structure LifecycleState where
  finalizerPresent : Bool
  artifactsExist : Bool

/-- Effect of one traced controller call on the lifecycle state; a failed
call (flag `false`) changes nothing. -/
def stepEv (s : LifecycleState) (eb : Event × Bool) : LifecycleState :=
  if eb.2 then
    match eb.1 with
    | Event.addFinalizer => { s with finalizerPresent := true }
    | Event.createDeployment => { s with artifactsExist := true }
    | Event.deleteDeployment => { s with artifactsExist := false }
    | Event.deleteFinalizer => { s with finalizerPresent := false }
  else s

/-- The central invariant: the finalizer is never absent while materialized
artifacts exist. -/
def safeB (s : LifecycleState) : Bool := !s.artifactsExist || s.finalizerPresent

/-- Checks `safeB` after every step of a trace, i.e. at every intermediate
point of the reconciliation. -/
def scanSafe (s : LifecycleState) : List (Event × Bool) → Bool
  | [] => true
  | eb :: tr => safeB (stepEv s eb) && scanSafe (stepEv s eb) tr

/-- Scanner for `precOk`: `seen` records whether a successful `e1` has
already occurred; every occurrence of `e2` (successful or not) must come
after one. -/
def precOkGo (e1 e2 : Event) : List (Event × Bool) → Bool → Bool
  | [], _ => true
  | eb :: tr, seen =>
      (if eb.1 = e2 then seen else true) && precOkGo e1 e2 tr (seen || (eb.1 == e1 && eb.2))

/-- True when, in the trace, every invocation of `e2` is preceded by an
already-successful invocation of `e1`. -/
def precOk (e1 e2 : Event) (tr : List (Event × Bool)) : Bool :=
  precOkGo e1 e2 tr false

end Main

/-! ## Variable layering of `GitopsWorkflow::create_deployment`
(src/workflows/gitops.rs lines 296-323) -/

/-- The three fixed platform defaults inserted first into
`template_values`: `clusterName`, `cloud`, `cloudRegion`. Written here in
reverse insertion order, as the later insert shadows the earlier ones (the
three keys are distinct, so the order is immaterial). -/
def GitopsWorkflow.platformDefaults (clusterName : String) : String → Option String :=
  fun k =>
    if k = "cloudRegion" then some "eastus2"
    else if k = "cloud" then some "azure"
    else if k = "clusterName" then some clusterName
    else none

/-- Embeds the `template_values` construction of
`GitopsWorkflow::create_deployment`: platform defaults, then the
`Application` values, then the `ApplicationEnvironment` values, then the
`ApplicationAssignment` values, each an optional map inserted pair by pair
(insert overwrites). Each optional layer is given as its iteration
sequence. -/
def GitopsWorkflow.buildTemplateValues (clusterName : String)
    (applicationValues environmentValues assignmentValues : Option (List (String × String))) :
    String → Option String :=
  let m3 := upd (upd (upd (fun _ => none) ("clusterName", clusterName))
    ("cloud", "azure")) ("cloudRegion", "eastus2")
  let m4 := match applicationValues with
    | none => m3
    | some l => updAll m3 l
  let m5 := match environmentValues with
    | none => m4
    | some l => updAll m4 l
  match assignmentValues with
  | none => m5
  | some l => updAll m5 l

/-- The value an optional override layer provides for key `k`: the last
inserted binding of the layer, if the layer is present and binds `k`. -/
def layerVal (o : Option (List (String × String))) (k : String) : Option String :=
  lastVal k (o.getD [])

/-! ## Concrete fixtures used by counterexamples and witnesses -/

/-- Outcome environment in which every external call succeeds. -/
def oAll : Main.Outcomes := ⟨true, true, true, true⟩

/-- A namespaced resource carrying the finalizer and no deletion timestamp. -/
def aWithFinalizer : ApplicationAssignment :=
  ⟨"myworkload", some "default", none, some ["application-assignment.microsoft.com"]⟩

/-- A namespaced resource marked for deletion. -/
def aDeleting : ApplicationAssignment :=
  ⟨"myworkload", some "default", some "2026-01-01T00:00:00Z", some ["application-assignment.microsoft.com"]⟩

/-- A fresh namespaced resource: no deletion timestamp, no finalizers. -/
def aFresh : ApplicationAssignment := ⟨"myworkload", some "default", none, none⟩

/-- A resource with no namespace set. -/
def aNoNamespace : ApplicationAssignment := ⟨"myworkload", none, none, none⟩

/-- A template tree whose only top-level entry is a dot-named directory. -/
def dottedTree : List Entry := [Entry.dir ".git" [Entry.file "f" []]]

/-- A small template tree with no dot-named directories. -/
def plainTree : List Entry :=
  [Entry.dir "sub" [Entry.file "a.yaml" [Segment.lit "x: ", Segment.var "clusterName"]],
   Entry.file "b.yaml" [Segment.lit "kind: B"]]

/-! ## Helper lemmas -/

/-- The early-exit conjunction loop agrees with universal quantification
over the rule list. -/
theorem matchesAll_iff (c : Cluster) (l : List LabelMatchSpec) :
    matchesAll c l = true ↔ ∀ s ∈ l, LabelMatchSpec.matches s c = true := by
  induction l with
  | nil => simp [matchesAll]
  | cons s rest ih => by_cases h : LabelMatchSpec.matches s c <;> simp [matchesAll, h, ih]

/-- Pointwise value of a fold of insert-overwrites: the last inserted
binding for the key wins; keys never inserted fall through to the base
map. -/
theorem updAll_apply {κ ν : Type} [DecidableEq κ] (l : List (κ × ν)) :
    ∀ (m : κ → Option ν) (k : κ),
      updAll m l k =
        match lastVal k l with
        | some v => some v
        | none => m k := by
  induction l with
  | nil => intro m k; rfl
  | cons kv l ih =>
      intro m k
      show updAll (upd m kv) l k = _
      rw [ih]
      cases h : lastVal k l with
      | some v => simp [lastVal, h]
      | none =>
          simp only [lastVal, h, upd]
          by_cases hk : k = kv.1
          · subst hk; simp
          · rw [if_neg hk, if_neg (fun h2 => hk h2.symm)]

/-- Applying the same write list twice is the same as applying it once:
each write pins its path to a fixed value independent of the prior store. -/
theorem updAll_idem {κ ν : Type} [DecidableEq κ] (ws : List (κ × ν))
    (s : κ → Option ν) (k : κ) :
    updAll (updAll s ws) ws k = updAll s ws k := by
  rw [updAll_apply]
  cases h : lastVal k ws with
  | none => simp
  | some v => rw [updAll_apply, h]

/-- The subdirectory-collecting loop of `link` equals a filter of the kept
directory entries followed by taking their names. -/
theorem keptDirs_eq_filter (entries : List DirEntry) :
    GitopsWorkflow.keptDirs entries
      = (entries.filter DirEntry.isKeptDir).map DirEntry.dname := by
  induction entries with
  | nil => rfl
  | cons e rest ih =>
      cases e with
      | dirE n =>
          by_cases h : n = "flux-system"
          · simp [GitopsWorkflow.keptDirs, h, List.filter_cons, DirEntry.isKeptDir, ih]
          · simp [GitopsWorkflow.keptDirs, h, List.filter_cons, DirEntry.isKeptDir, ih,
              DirEntry.dname]
      | fileE n =>
          simp [GitopsWorkflow.keptDirs, List.filter_cons, DirEntry.isKeptDir, ih]

/-- Non-strict rendering never fails and computes the total non-strict
value, for every accumulator. -/
theorem hbRenderSegs_false (values : List (String × String)) (t : List Segment) :
    ∀ acc, hbRenderSegs false values t acc = Except.ok (hbRenderOkSegs values t acc) := by
  induction t with
  | nil => intro acc; rfl
  | cons seg rest ih =>
      intro acc
      cases seg with
      | lit s => simp [hbRenderSegs, hbRenderOkSegs, ih]
      | var n => cases h : lookupList values n <;> simp [hbRenderSegs, hbRenderOkSegs, h, ih]

/-- The path list returned by the gitops renderer is exactly the first
projection of its write list, in order. -/
theorem renderEntries_paths_eq (values : List (String × String)) :
    ∀ (rootRel : List String) (tree : List Entry),
      (GitopsWorkflow.renderEntries values rootRel tree).1
        = ((GitopsWorkflow.renderEntries values rootRel tree).2).map Prod.fst := by
  intro rootRel tree
  induction rootRel, tree using GitopsWorkflow.renderEntries.induct values with
  | case1 r => simp [GitopsWorkflow.renderEntries]
  | case2 r n c rest ih => simp [GitopsWorkflow.renderEntries, ih]
  | case3 r n sub rest hd ih => simp [GitopsWorkflow.renderEntries, hd, ih]
  | case4 r n sub rest hd ih1 ih2 => simp [GitopsWorkflow.renderEntries, hd, ih1, ih2]

/-- Removing the dot-named directories from the input tree does not change
the gitops render result: those subtrees are never visited. -/
theorem renderEntries_prune (values : List (String × String)) :
    ∀ (rootRel : List String) (tree : List Entry),
      GitopsWorkflow.renderEntries values rootRel (pruneDotted tree)
        = GitopsWorkflow.renderEntries values rootRel tree := by
  intro rootRel tree
  induction rootRel, tree using GitopsWorkflow.renderEntries.induct values with
  | case1 r => simp [pruneDotted]
  | case2 r n c rest ih => simp [GitopsWorkflow.renderEntries, pruneDotted, ih]
  | case3 r n sub rest hd ih => simp [GitopsWorkflow.renderEntries, pruneDotted, hd, ih]
  | case4 r n sub rest hd ih1 ih2 =>
      simp [GitopsWorkflow.renderEntries, pruneDotted, hd, ih1, ih2]

/-- Every path the gitops renderer returns lives under the requested
output-relative root. -/
theorem renderEntries_mirror (values : List (String × String)) :
    ∀ (rootRel : List String) (tree : List Entry),
      ∀ p ∈ (GitopsWorkflow.renderEntries values rootRel tree).1,
        ∃ rel, p = rootRel ++ rel := by
  intro rootRel tree
  induction rootRel, tree using GitopsWorkflow.renderEntries.induct values with
  | case1 r => simp [GitopsWorkflow.renderEntries]
  | case2 r n c rest ih =>
      intro p hp
      rw [GitopsWorkflow.renderEntries] at hp
      rcases List.mem_cons.mp hp with h | h
      · exact ⟨[n], h⟩
      · exact ih p h
  | case3 r n sub rest hd ih =>
      intro p hp
      rw [GitopsWorkflow.renderEntries] at hp
      simp only [hd, if_true] at hp
      exact ih p hp
  | case4 r n sub rest hd ih1 ih2 =>
      intro p hp
      rw [GitopsWorkflow.renderEntries] at hp
      simp only [hd, if_false] at hp
      rcases List.mem_append.mp hp with h | h
      · obtain ⟨rel, hrel⟩ := ih1 p h
        exact ⟨n :: rel, by simpa [List.append_assoc] using hrel⟩
      · exact ih2 p h

/-! ## Claim theorems -/

/-- C1: within one reconciliation, in the Create path the finalizer-add
call is made and succeeds before the Synchronizer materialization call is
made; in the Delete path the finalizer-remove call is only made after the
Synchronizer removal call has succeeded; consequently, starting from any
lifecycle state in which the finalizer is not absent while artifacts exist,
that invariant holds after every step of the reconciliation trace. -/
theorem claim1_lifecycle_ordering (o : Main.Outcomes) (a : ApplicationAssignment)
    (s0 : Main.LifecycleState) (h : Main.safeB s0 = true) :
    Main.precOk Main.Event.addFinalizer Main.Event.createDeployment
        (Main.reconcile o a).1 = true
  ∧ Main.precOk Main.Event.deleteDeployment Main.Event.deleteFinalizer
        (Main.reconcile o a).1 = true
  ∧ Main.scanSafe s0 (Main.reconcile o a).1 = true := by
  obtain ⟨af, cd, dd, df⟩ := o
  obtain ⟨fin, art⟩ := s0
  cases hn : a.resourceNamespace with
  | none =>
      refine ⟨?_, ?_, ?_⟩ <;>
        simp [Main.reconcile, hn, Main.precOk, Main.precOkGo, Main.scanSafe]
  | some ns =>
      cases hd : a.deletionTimestamp <;> cases hf : a.finalizers <;>
        cases af <;> cases cd <;> cases dd <;> cases df <;> cases fin <;> cases art <;>
        simp_all [Main.reconcile, Main.determine_action, Main.precOk, Main.precOkGo,
          Main.scanSafe, Main.stepEv, Main.safeB]

/-- Witness for C1 at a concrete resource, outcome set and entry state. -/
theorem claim1_witness :
    Main.precOk Main.Event.addFinalizer Main.Event.createDeployment
        (Main.reconcile oAll aWithFinalizer).1 = true
  ∧ Main.precOk Main.Event.deleteDeployment Main.Event.deleteFinalizer
        (Main.reconcile oAll aWithFinalizer).1 = true
  ∧ Main.scanSafe ⟨true, false⟩ (Main.reconcile oAll aWithFinalizer).1 = true :=
  claim1_lifecycle_ordering oAll aWithFinalizer ⟨true, false⟩ (by decide)

/-- C2 counterexample: a namespaced resource with neither the deletion
marker nor the finalizer present is classified `NoOp`, and its
reconciliation makes no controller call at all (in particular it does not
add the finalizer and does not start a Create), requeueing after 60s — a
terminal no-op for that cycle, contrary to the claim. -/
theorem claim2_counterexample :
    Main.determine_action aFresh = Main.Action.NoOp
  ∧ Main.reconcile oAll aFresh = ([], Except.ok (some 60)) :=
  ⟨rfl, rfl⟩

/-- C2 amended: deletion marker present gives `Delete`; otherwise a present
finalizer gives `Create`; with neither marker the resource is classified
`NoOp` and the reconciliation performs no action (empty call trace) and
requeues after 60 seconds. -/
theorem claim2_classification (a : ApplicationAssignment) (o : Main.Outcomes) :
    (a.deletionTimestamp.isSome = true →
      Main.determine_action a = Main.Action.Delete)
  ∧ (a.deletionTimestamp.isSome = false → a.finalizers.isSome = true →
      Main.determine_action a = Main.Action.Create)
  ∧ (a.deletionTimestamp.isSome = false → a.finalizers.isSome = false →
      Main.determine_action a = Main.Action.NoOp
        ∧ (a.resourceNamespace.isSome = true →
            Main.reconcile o a = ([], Except.ok (some 60)))) := by
  refine ⟨?_, ?_, ?_⟩
  · intro h1
    simp [Main.determine_action, h1]
  · intro h1 h2
    simp [Main.determine_action, h1, h2]
  · intro h1 h2
    have hact : Main.determine_action a = Main.Action.NoOp := by
      simp [Main.determine_action, h1, h2]
    refine ⟨hact, ?_⟩
    intro h3
    cases hn : a.resourceNamespace with
    | none => rw [hn] at h3; simp at h3
    | some ns => simp [Main.reconcile, hn, hact]

/-- Witness for C2 amended at a concrete fresh resource. -/
theorem claim2_witness :
    Main.reconcile oAll aFresh = ([], Except.ok (some 60)) :=
  (((claim2_classification aFresh oAll).2.2 rfl rfl).2) rfl

/-- C3: a resource without a namespace makes reconcile return the
`UserInputError` immediately: the call trace is empty, so no finalizer is
added and no clone or other synchronizer work occurs, whatever the deletion
and finalizer markers and whatever the external outcomes would be. -/
theorem claim3_missing_namespace (o : Main.Outcomes) (a : ApplicationAssignment)
    (h : a.resourceNamespace = none) :
    Main.reconcile o a = ([], Except.error Main.RecError.userInputError) := by
  simp [Main.reconcile, h]

/-- Witness for C3 at a concrete namespace-less resource. -/
theorem claim3_witness :
    Main.reconcile oAll aNoNamespace = ([], Except.error Main.RecError.userInputError) :=
  claim3_missing_namespace oAll aNoNamespace rfl

/-- C4 counterexample: on a directory with subdirectories a, b and
flux-system, the applications list written into the manifest is
`../common, a, b`, not exactly `a, b` as the claim states — the linker
always seeds the list with the `../common` reference. -/
theorem claim4_counterexample :
    GitopsWorkflow.applications
        [DirEntry.dirE "a", DirEntry.dirE "b", DirEntry.dirE "flux-system"]
      = ["../common", "a", "b"]
  ∧ GitopsWorkflow.applications
        [DirEntry.dirE "a", DirEntry.dirE "b", DirEntry.dirE "flux-system"]
      ≠ ["a", "b"] := by
  refine ⟨rfl, ?_⟩
  decide

/-- C4 amended: the manifest resources list is `../common` followed by
exactly the immediate subdirectories other than the reserved flux-system,
in listing order, and link fully overwrites the manifest file: the
resulting contents are a function of the listing alone, whatever the prior
store held at that path. -/
theorem claim4_link (entries : List DirEntry) (cp : List String) (s : Store) :
    GitopsWorkflow.applications entries
        = "../common" :: (entries.filter DirEntry.isKeptDir).map DirEntry.dname
  ∧ GitopsWorkflow.link entries cp s (cp ++ ["kustomization.yaml"])
        = some (GitopsWorkflow.kustomization entries) := by
  constructor
  · unfold GitopsWorkflow.applications
    rw [keptDirs_eq_filter]
  · simp [GitopsWorkflow.link, upd]

/-- C5 counterexample: a template consisting of a single reference to the
variable `missing`, rendered against a variable map that does not bind it,
succeeds with the empty output rather than failing: the source uses the
default non-strict handlebars registry. -/
theorem claim5_counterexample :
    lookupList [] "missing" = none
  ∧ hbRender false [Segment.var "missing"] [] = Except.ok "" :=
  ⟨rfl, rfl⟩

/-- C5 amended: with the non-strict engine the source actually constructs,
rendering never fails; an unresolved variable reference silently
contributes the empty string to the output. -/
theorem claim5_nonstrict (t : List Segment) (values : List (String × String)) :
    hbRender false t values = Except.ok (hbRenderOkSegs values t "") :=
  hbRenderSegs_false values t ""

/-- C6: a label rule matches a cluster exactly when the rule key is present
in the cluster labels with a value accepted by the rule regex; an absent
key is a plain non-match (false, not an error). An assignment rule matches
as the conjunction of its label rules, and an empty rule list matches every
cluster. -/
theorem claim6_label_matching :
    (∀ (s : LabelMatchSpec) (c : Cluster),
        (LabelMatchSpec.matches s c = true ↔
          ∃ v, lookupList c.labels s.label = some v ∧ s.regexMatch v = true)
      ∧ (lookupList c.labels s.label = none → LabelMatchSpec.matches s c = false))
  ∧ (∀ (r : AssignmentSpec) (c : Cluster),
        (AssignmentSpec.matches r c = true ↔
          ∀ s ∈ r.matchingLabels, LabelMatchSpec.matches s c = true)
      ∧ (r.matchingLabels = [] → AssignmentSpec.matches r c = true)) := by
  constructor
  · intro s c
    constructor
    · unfold LabelMatchSpec.matches
      cases h : lookupList c.labels s.label <;> simp [h]
    · intro h
      simp [LabelMatchSpec.matches, h]
  · intro r c
    constructor
    · simpa [AssignmentSpec.matches] using matchesAll_iff c r.matchingLabels
    · intro h
      simp [AssignmentSpec.matches, h, matchesAll]

/-- Witness for C6: a rule whose key is absent from the cluster labels does
not match, by the absent-key clause of the claim theorem. -/
theorem claim6_witness :
    LabelMatchSpec.matches ⟨"region", fun _ => true⟩ ⟨"c1", [("cloud", "azure")]⟩ = false :=
  (claim6_label_matching.1 ⟨"region", fun _ => true⟩ ⟨"c1", [("cloud", "azure")]⟩).2 rfl

/-- C7: the gitops renderer skips every dot-named directory entirely (the
render result is unchanged when those subtrees are removed from the input),
returns exactly the output-relative paths of the files it wrote, in visit
order and with directories excluded, and every such path is mirrored under
the requested output root. -/
theorem claim7_render_walk (values : List (String × String)) (rootRel : List String)
    (tree : List Entry) :
    (GitopsWorkflow.renderEntries values rootRel tree).1
        = ((GitopsWorkflow.renderEntries values rootRel tree).2).map Prod.fst
  ∧ GitopsWorkflow.renderEntries values rootRel tree
        = GitopsWorkflow.renderEntries values rootRel (pruneDotted tree)
  ∧ ∀ p ∈ (GitopsWorkflow.renderEntries values rootRel tree).1,
        ∃ rel, p = rootRel ++ rel :=
  ⟨renderEntries_paths_eq values rootRel tree,
    (renderEntries_prune values rootRel tree).symm,
    renderEntries_mirror values rootRel tree⟩

/-- Witness for C7 at a concrete tree whose only entry is a dot-named
directory: rendering it equals rendering the pruned (empty) tree. -/
theorem claim7_witness :
    GitopsWorkflow.renderEntries [] [] dottedTree
      = GitopsWorkflow.renderEntries [] [] (pruneDotted dottedTree) :=
  (claim7_render_walk [] [] dottedTree).2.1

/-- C8: the variable map built by `create_deployment` resolves every key by
the layering assignment-values over environment-values over
application-values over the fixed platform defaults: the highest layer
binding the key wins. -/
theorem claim8_variable_layering (cn : String)
    (app env asg : Option (List (String × String))) (k : String) :
    GitopsWorkflow.buildTemplateValues cn app env asg k =
      overlay (layerVal asg k)
        (overlay (layerVal env k)
          (overlay (layerVal app k) (GitopsWorkflow.platformDefaults cn k))) := by
  have hb : GitopsWorkflow.buildTemplateValues cn app env asg =
      updAll (updAll (updAll (GitopsWorkflow.platformDefaults cn) (app.getD []))
        (env.getD [])) (asg.getD []) := by
    cases app <;> cases env <;> cases asg <;> rfl
  rw [hb, updAll_apply, updAll_apply, updAll_apply]
  cases h3 : lastVal k (asg.getD []) <;> cases h2 : lastVal k (env.getD []) <;>
    cases h1 : lastVal k (app.getD []) <;>
    simp [overlay, layerVal, h1, h2, h3]

/-- C9: one render pass is idempotent as a filesystem transformation:
running the renderer again over the store produced by the first pass
returns the same path list and leaves the store unchanged, because the
writes of a pass depend only on the template tree and variables. -/
theorem claim9_render_idempotent (values : List (String × String)) (rootRel : List String)
    (tree : List Entry) (s : Store) :
    GitopsWorkflow.renderRun values rootRel tree
        ((GitopsWorkflow.renderRun values rootRel tree s).2)
      = GitopsWorkflow.renderRun values rootRel tree s := by
  simp only [GitopsWorkflow.renderRun]
  congr 1
  funext k
  exact updAll_idem (GitopsWorkflow.renderEntries values rootRel tree).2 s k

/-- C10 counterexample: on a tree whose only entry is a dot-named directory
containing one file, the standalone renderer emits that file while the
gitops renderer emits nothing, so the two are not behaviorally
equivalent. -/
theorem claim10_counterexample :
    utils.renderEntries [] [] dottedTree ≠ GitopsWorkflow.renderEntries [] [] dottedTree := by
  have hd : isDotted ".git" = true := by decide
  simp [dottedTree, utils.renderEntries, GitopsWorkflow.renderEntries, hd]

/-- C10 amended: the two renderers agree on every template tree that
contains no dot-named directory at any depth; they differ exactly in that
`utils::render` descends into dot-named directories instead of skipping
them. -/
theorem claim10_equiv_no_dotted (values : List (String × String)) (rootRel : List String)
    (tree : List Entry) (h : noDottedDirs tree = true) :
    utils.renderEntries values rootRel tree
      = GitopsWorkflow.renderEntries values rootRel tree := by
  revert h
  induction rootRel, tree using utils.renderEntries.induct values with
  | case1 r => intro h; simp [utils.renderEntries, GitopsWorkflow.renderEntries]
  | case2 r n c rest ih =>
      intro h
      rw [noDottedDirs] at h
      simp [utils.renderEntries, GitopsWorkflow.renderEntries, ih h]
  | case3 r n sub rest ih1 ih2 =>
      intro h
      rw [noDottedDirs] at h
      simp only [Bool.and_assoc, Bool.and_eq_true, Bool.not_eq_true'] at h
      obtain ⟨hdot, hsub, hrest⟩ := h
      rw [utils.renderEntries, GitopsWorkflow.renderEntries]
      simp [hdot, ih1 hsub, ih2 hrest]

/-- Witness for C10 amended at a concrete dot-free tree. -/
theorem claim10_witness :
    utils.renderEntries [] [] plainTree = GitopsWorkflow.renderEntries [] [] plainTree :=
  claim10_equiv_no_dotted [] [] plainTree (by
    have h1 : isDotted "sub" = false := by decide
    simp [plainTree, noDottedDirs, h1])
